import Mathlib

/-!
Shallow embedding of the btlog Loki shipping client:
the bounded append buffer (pkg/buffer.go), the shipping client
(loki/client.go: NewClient, pushLogWithLevel, Start, Stop, flush, send),
the wire types (loki/types.go: Stream, PushRequest, ClientConfig) and the
zap delegation wrapper (zap/logger.go: Logger.Debug .. Logger.Fatal).

Effects are made explicit: the wall clock is a `now : Int` argument, the
HTTP client is an oracle `respond : HTTPPost → Except String HTTPResponse`,
and diagnostic output (Go `log.Printf`) is a returned `List String`.
Go's nondeterministic map iteration in `flush` is determinized by grouping
levels in order of first occurrence in the drained batch.
-/

namespace Btlog

/-- Modelled from the spec: the `pkg.LogLevel` type and its constants
`LevelDebug`, `LevelInfo`, `LevelWarn`, `LevelError` are declared in a
repository file not present under src/ (only their uses in loki/client.go
are). The spec gives the enum as Debug, Info, Warn, Error in that order. -/
inductive LogLevel where
  | debug
  | info
  | warn
  | error
deriving DecidableEq, Repr

/-- Modelled from the spec: the numeric order underlying the missing
`pkg.LogLevel` constants, Debug < Info < Warn < Error, used by the
`level < config.MinLevel` comparison in loki/client.go. -/
def LogLevel.toNat : LogLevel → Nat
  | .debug => 0
  | .info => 1
  | .warn => 2
  | .error => 3

/-- Modelled from the spec: `pkg.LevelToString`, the canonical level name
used for the `detected_level` label, is declared in a repository file not
present under src/. The spec only requires a canonical name per level. -/
def LevelToString : LogLevel → String
  | .debug => "debug"
  | .info => "info"
  | .warn => "warn"
  | .error => "error"

/-- pkg.LogEntry: Unix-nanosecond timestamp, message, level. -/
structure LogEntry where
  timestamp : Int
  message : String
  level : LogLevel
deriving DecidableEq, Repr

/-- pkg.Buffer: an ordered sequence of entries plus the size threshold. -/
structure Buffer where
  entries : List LogEntry
  size : Int
deriving DecidableEq, Repr

/-- pkg.NewBuffer: a non-positive size is replaced by the default 100. -/
def NewBuffer (size : Int) : Buffer :=
  let size := if size ≤ 0 then 100 else size
  { entries := [], size := size }

/-- pkg.Buffer.Add: appends the entry and reports whether the resulting
length reached the threshold. -/
def Buffer.Add (b : Buffer) (entry : LogEntry) : Buffer × Bool :=
  let entries := b.entries ++ [entry]
  ({ b with entries := entries }, decide (b.size ≤ (entries.length : Int)))

/-- pkg.Buffer.Flush: returns `none` (Go nil) on an empty buffer, otherwise
detaches and returns the contents and resets the storage. -/
def Buffer.Flush (b : Buffer) : Buffer × Option (List LogEntry) :=
  if b.entries = [] then (b, none)
  else ({ b with entries := [] }, some b.entries)

/-- Folds a sequence of `Add` calls, keeping only the buffer state. -/
def Buffer.addAll (b : Buffer) (es : List LogEntry) : Buffer :=
  es.foldl (fun acc e => (acc.Add e).1) b

/-- Association-list model of a Go `map[string]string`. -/
def LabelMap := List (String × String)

/-- Go map read: the value bound to `k`, if any. -/
def mapGet (m : List (String × String)) (k : String) : Option String :=
  (m.find? (fun p => p.1 == k)).map Prod.snd

/-- Go map write `m[k] = v` on a copy: any old binding for `k` is replaced. -/
def mapSet (m : List (String × String)) (k v : String) : List (String × String) :=
  m.filter (fun p => p.1 != k) ++ [(k, v)]

/-- loki.Stream: a label map plus (timestamp-string, message) value pairs. -/
structure Stream where
  stream : List (String × String)
  values : List (String × String)
deriving DecidableEq, Repr

/-- loki.PushRequest: the streams of one push. -/
structure PushRequest where
  streams : List Stream
deriving DecidableEq, Repr

/-- loki.ClientConfig (the HTTP client handle is the `respond` oracle). -/
structure ClientConfig where
  url : String
  labels : List (String × String)
  batchSize : Int
  minWaitTime : Int
  maxWaitTime : Int
  minLevel : LogLevel
deriving DecidableEq, Repr

/-- loki.Client: config, buffer, and the two lifecycle flags. -/
structure Client where
  config : ClientConfig
  buffer : Buffer
  started : Bool
  closed : Bool
deriving DecidableEq, Repr

/-- The construction error (loki.NewClient: URL is required). -/
inductive ConfigError where
  | urlRequired
deriving DecidableEq, Repr

/-- loki.NewClient: validates the URL and normalizes batch size and wait
times in the source's order, then builds the client with a fresh buffer. -/
def NewClient (config : ClientConfig) : Except ConfigError Client :=
  if config.url = "" then .error .urlRequired
  else
    let config := { config with
      batchSize := if config.batchSize = 0 then 100 else config.batchSize }
    let config := { config with
      minWaitTime := if config.minWaitTime = 0 then 1 else config.minWaitTime }
    let config := { config with
      maxWaitTime := if config.maxWaitTime = 0 then 10 else config.maxWaitTime }
    let config := { config with
      maxWaitTime :=
        if config.maxWaitTime ≤ config.minWaitTime then config.minWaitTime + 1
        else config.maxWaitTime }
    .ok { config := config, buffer := NewBuffer config.batchSize,
          started := false, closed := false }

/-- An HTTP response as seen by loki.Client.send: status code and body. -/
structure HTTPResponse where
  statusCode : Int
  body : String
deriving DecidableEq, Repr

/-- The POST issued by loki.Client.send (payload kept pre-serialization). -/
structure HTTPPost where
  url : String
  contentType : String
  payload : PushRequest
deriving DecidableEq, Repr

/-- The errors loki.Client.send can return. `json.Marshal` cannot fail on
`PushRequest` values, so no marshal branch arises. -/
inductive SendError where
  | requestError (msg : String)
  | statusError (code : Int) (body : String)
deriving DecidableEq, Repr

/-- Rendering of a SendError, matching the source's fmt.Errorf texts. -/
def SendError.render : SendError → String
  | .requestError msg => "send request failed: " ++ msg
  | .statusError code body =>
      "unexpected status code: " ++ toString code ++ ", body: " ++ body

/-- The POST loki.Client.send issues: baseURL ++ "/loki/api/v1/push" with
JSON content type, carrying the request (kept pre-serialization). -/
def sendPost (config : ClientConfig) (req : PushRequest) : HTTPPost :=
  { url := config.url ++ "/loki/api/v1/push",
    contentType := "application/json", payload := req }

/-- loki.Client.send: issues the POST through the HTTP oracle and
classifies the outcome: 204 is success, any other status is an error
carrying status and body, a transport failure is an error carrying its
message. The issued POST is returned alongside so theorems can inspect
it. -/
def Client.send (config : ClientConfig)
    (respond : HTTPPost → Except String HTTPResponse) (req : PushRequest) :
    HTTPPost × Except SendError Unit :=
  (sendPost config req,
   match respond (sendPost config req) with
   | .error e => .error (.requestError e)
   | .ok resp =>
       if resp.statusCode = 204 then .ok ()
       else .error (.statusError resp.statusCode resp.body))

/-- The level-grouping accumulator of loki.Client.flush: a level is
recorded the first time it is seen. -/
def addLevel (acc : List LogLevel) (lvl : LogLevel) : List LogLevel :=
  if lvl ∈ acc then acc else acc ++ [lvl]

/-- The distinct levels of a batch, in order of first occurrence —
the determinization of the Go map built by loki.Client.flush. -/
def distinctLevels (entries : List LogEntry) : List LogLevel :=
  entries.foldl (fun acc e => addLevel acc e.level) []

/-- One entry rendered as loki.Client.flush renders it: the decimal string
of its timestamp (strconv.FormatInt) paired with its message. -/
def entryValue (e : LogEntry) : String × String :=
  (toString e.timestamp, e.message)

/-- The stream loki.Client.flush builds for one level: the configured
labels with `detected_level` set, and the level's entries in batch order. -/
def streamFor (config : ClientConfig) (entries : List LogEntry)
    (lvl : LogLevel) : Stream :=
  { stream := mapSet config.labels "detected_level" (LevelToString lvl),
    values := (entries.filter (fun e => e.level == lvl)).map entryValue }

/-- The streams of one flush: one per distinct level of the batch. -/
def flushStreams (config : ClientConfig) (entries : List LogEntry) :
    List Stream :=
  (distinctLevels entries).map (streamFor config entries)

/-- loki.Client.flush: drains the buffer; on an empty batch returns with no
network call, otherwise groups the batch into streams, sends the request,
and logs a diagnostic line on failure. Returns the new client, the request
sent (if any), and the diagnostic lines; the source's flush itself returns
nothing to its caller. -/
def Client.flushWith (c : Client)
    (respond : HTTPPost → Except String HTTPResponse) :
    Client × Option PushRequest × List String :=
  match c.buffer.Flush with
  | (b', none) => ({ c with buffer := b' }, none, [])
  | (b', some entries) =>
      let req : PushRequest := { streams := flushStreams c.config entries }
      match (Client.send c.config respond req).2 with
      | .ok _ => ({ c with buffer := b' }, some req, [])
      | .error e =>
          ({ c with buffer := b' }, some req,
           ["Failed to send logs to Loki: " ++ e.render])

/-- The lifecycle errors of loki.Client.pushLogWithLevel. -/
inductive SubmitError where
  | closedError
  | notStartedError
deriving DecidableEq, Repr

/-- loki.Client.pushLogWithLevel: rejects when closed, then when not
started; drops silently below the minimum level; otherwise appends the
entry stamped with `now` and flushes when the threshold is reached. -/
def Client.pushLogWithLevel (c : Client) (message : String) (level : LogLevel)
    (now : Int) (respond : HTTPPost → Except String HTTPResponse) :
    Client × List String × Option SubmitError :=
  if c.closed then (c, [], some .closedError)
  else if c.started = false then (c, [], some .notStartedError)
  else if level.toNat < c.config.minLevel.toNat then (c, [], none)
  else
    let entry : LogEntry := { timestamp := now, message := message, level := level }
    match c.buffer.Add entry with
    | (b', true) =>
        let r := Client.flushWith { c with buffer := b' } respond
        (r.1, r.2.2, none)
    | (b', false) => ({ c with buffer := b' }, [], none)

/-- loki.Client.Debug. -/
def Client.Debug (c : Client) (message : String) (now : Int)
    (respond : HTTPPost → Except String HTTPResponse) :
    Client × List String × Option SubmitError :=
  c.pushLogWithLevel message .debug now respond

/-- loki.Client.Info. -/
def Client.Info (c : Client) (message : String) (now : Int)
    (respond : HTTPPost → Except String HTTPResponse) :
    Client × List String × Option SubmitError :=
  c.pushLogWithLevel message .info now respond

/-- loki.Client.Warn. -/
def Client.Warn (c : Client) (message : String) (now : Int)
    (respond : HTTPPost → Except String HTTPResponse) :
    Client × List String × Option SubmitError :=
  c.pushLogWithLevel message .warn now respond

/-- loki.Client.Error. -/
def Client.Error (c : Client) (message : String) (now : Int)
    (respond : HTTPPost → Except String HTTPResponse) :
    Client × List String × Option SubmitError :=
  c.pushLogWithLevel message .error now respond

/-- loki.Client.Start: only the first call flips `started` and spawns the
worker; the Bool reports whether this call spawned it. -/
def Client.Start (c : Client) : Client × Bool :=
  if c.started then (c, false) else ({ c with started := true }, true)

/-- loki.Client.Stop: `if not started.Load() or closed.Swap(true) then
return` — the disjunction short-circuits, so a never-started client is
left untouched (closed is not swapped); an already-closed started client
keeps closed true; otherwise closed is set and a final flush runs. -/
def Client.Stop (c : Client)
    (respond : HTTPPost → Except String HTTPResponse) :
    Client × List String :=
  if c.started = false then (c, [])
  else if c.closed then ({ c with closed := true }, [])
  else
    let c' := { c with closed := true }
    let r := c'.flushWith respond
    (r.1, r.2.2)

/-- An observable action of the zap delegation wrapper: a call on the
embedded local zap logger, or a call on the remote Loki client. -/
inductive SinkAction where
  | localSink (method : String) (msg : String)
  | remoteSink (level : LogLevel) (msg : String)
deriving DecidableEq, Repr

/-- The zap wrapper (zap/logger.go): `hasLoki` models `lokiClient ≠ nil`. -/
structure Logger where
  hasLoki : Bool
deriving DecidableEq, Repr

/-- zap Logger.Debug: local first, then remote if Loki is enabled; `fmsg`
is the formatMessage rendering of msg and fields passed to the remote. -/
def Logger.Debug (l : Logger) (msg fmsg : String) : List SinkAction :=
  [.localSink "Debug" msg] ++ (if l.hasLoki then [.remoteSink .debug fmsg] else [])

/-- zap Logger.Info: local first, then remote. -/
def Logger.Info (l : Logger) (msg fmsg : String) : List SinkAction :=
  [.localSink "Info" msg] ++ (if l.hasLoki then [.remoteSink .info fmsg] else [])

/-- zap Logger.Warn: local first, then remote. -/
def Logger.Warn (l : Logger) (msg fmsg : String) : List SinkAction :=
  [.localSink "Warn" msg] ++ (if l.hasLoki then [.remoteSink .warn fmsg] else [])

/-- zap Logger.Error: local first, then remote. -/
def Logger.Error (l : Logger) (msg fmsg : String) : List SinkAction :=
  [.localSink "Error" msg] ++ (if l.hasLoki then [.remoteSink .error fmsg] else [])

/-- zap Logger.DPanic: local first, then remote at Error level. -/
def Logger.DPanic (l : Logger) (msg fmsg : String) : List SinkAction :=
  [.localSink "DPanic" msg] ++ (if l.hasLoki then [.remoteSink .error fmsg] else [])

/-- zap Logger.Panic: local first, then remote at Error level. -/
def Logger.Panic (l : Logger) (msg fmsg : String) : List SinkAction :=
  [.localSink "Panic" msg] ++ (if l.hasLoki then [.remoteSink .error fmsg] else [])

/-- zap Logger.Fatal: the remote call at Error level comes first, then the
local terminating call. -/
def Logger.Fatal (l : Logger) (msg fmsg : String) : List SinkAction :=
  (if l.hasLoki then [.remoteSink .error fmsg] else []) ++ [.localSink "Fatal" msg]

/-! Helper lemmas. -/

theorem Buffer.addAll_cons (b : Buffer) (e : LogEntry) (es : List LogEntry) :
    b.addAll (e :: es) = ((b.Add e).1).addAll es := rfl

theorem Buffer.addAll_entries (es : List LogEntry) (b : Buffer) :
    (b.addAll es).entries = b.entries ++ es := by
  induction es generalizing b with
  | nil => simp [Buffer.addAll]
  | cons e es ih =>
      rw [Buffer.addAll_cons, ih]
      simp [Buffer.Add]

theorem Buffer.addAll_size (es : List LogEntry) (b : Buffer) :
    (b.addAll es).size = b.size := by
  induction es generalizing b with
  | nil => rfl
  | cons e es ih => rw [Buffer.addAll_cons, ih]; rfl

theorem mem_addLevel (acc : List LogLevel) (x lvl : LogLevel) :
    lvl ∈ addLevel acc x ↔ lvl ∈ acc ∨ lvl = x := by
  unfold addLevel
  split
  · rename_i hx
    constructor
    · exact fun h => Or.inl h
    · rintro (h | h)
      · exact h
      · subst h; exact hx
  · simp

theorem nodup_addLevel (acc : List LogLevel) (x : LogLevel) (h : acc.Nodup) :
    (addLevel acc x).Nodup := by
  unfold addLevel
  split
  · exact h
  · rename_i hx
    refine List.Nodup.append h (List.nodup_singleton x) ?_
    intro a ha hb
    simp only [List.mem_singleton] at hb
    subst hb
    exact hx ha

theorem mem_foldl_addLevel (es : List LogEntry) (acc : List LogLevel)
    (lvl : LogLevel) :
    lvl ∈ es.foldl (fun acc e => addLevel acc e.level) acc ↔
      lvl ∈ acc ∨ ∃ e ∈ es, e.level = lvl := by
  induction es generalizing acc with
  | nil => simp
  | cons e es ih =>
      simp only [List.foldl_cons, ih, mem_addLevel, List.mem_cons]
      constructor
      · rintro ((h | h) | ⟨e', he', hl⟩)
        · exact Or.inl h
        · exact Or.inr ⟨e, Or.inl rfl, h.symm⟩
        · exact Or.inr ⟨e', Or.inr he', hl⟩
      · rintro (h | ⟨e', (he' | he'), hl⟩)
        · exact Or.inl (Or.inl h)
        · subst he'; exact Or.inl (Or.inr hl.symm)
        · exact Or.inr ⟨e', he', hl⟩

theorem distinctLevels_nodup (entries : List LogEntry) :
    (distinctLevels entries).Nodup := by
  have hgen : ∀ (es : List LogEntry) (acc : List LogLevel), acc.Nodup →
      (es.foldl (fun acc e => addLevel acc e.level) acc).Nodup := by
    intro es
    induction es with
    | nil => exact fun acc h => h
    | cons e es ih => exact fun acc h => ih _ (nodup_addLevel _ _ h)
  exact hgen entries [] List.nodup_nil

theorem mem_distinctLevels (entries : List LogEntry) (lvl : LogLevel) :
    lvl ∈ distinctLevels entries ↔ ∃ e ∈ entries, e.level = lvl := by
  unfold distinctLevels
  rw [mem_foldl_addLevel]
  simp

theorem mapGet_cons (p : String × String) (m : List (String × String))
    (k : String) :
    mapGet (p :: m) k = if p.1 = k then some p.2 else mapGet m k := by
  unfold mapGet
  rw [List.find?_cons]
  by_cases hp : p.1 = k
  · have hb : (p.1 == k) = true := by simp [hp]
    rw [hb, if_pos hp]
    rfl
  · have hb : (p.1 == k) = false := by simp [hp]
    rw [hb, if_neg hp]

theorem filter_ne_cons_of_eq (p : String × String) (m : List (String × String))
    (k : String) (hp : p.1 = k) :
    (p :: m).filter (fun q => q.1 != k) = m.filter (fun q => q.1 != k) := by
  have hb : (p.1 != k) = false := by simp [hp]
  simp [List.filter_cons, hb]

theorem filter_ne_cons_of_ne (p : String × String) (m : List (String × String))
    (k : String) (hp : ¬ p.1 = k) :
    (p :: m).filter (fun q => q.1 != k) = p :: m.filter (fun q => q.1 != k) := by
  have hb : (p.1 != k) = true := by simp [hp]
  simp [List.filter_cons, hb]

theorem mapGet_filter_self (m : List (String × String)) (k : String) :
    mapGet (m.filter (fun q => q.1 != k)) k = none := by
  induction m with
  | nil => rfl
  | cons p m ih =>
      by_cases hp : p.1 = k
      · rw [filter_ne_cons_of_eq p m k hp]; exact ih
      · rw [filter_ne_cons_of_ne p m k hp, mapGet_cons, if_neg hp]; exact ih

theorem mapGet_filter_ne (m : List (String × String)) (k k' : String)
    (h : k' ≠ k) :
    mapGet (m.filter (fun q => q.1 != k)) k' = mapGet m k' := by
  induction m with
  | nil => rfl
  | cons p m ih =>
      by_cases hp : p.1 = k
      · rw [filter_ne_cons_of_eq p m k hp, ih, mapGet_cons,
          if_neg (fun hh => h (by rw [← hh]; exact hp))]
      · rw [filter_ne_cons_of_ne p m k hp, mapGet_cons, mapGet_cons]
        by_cases hk' : p.1 = k'
        · rw [if_pos hk', if_pos hk']
        · rw [if_neg hk', if_neg hk', ih]

theorem mapGet_append (xs ys : List (String × String)) (k : String) :
    mapGet (xs ++ ys) k =
      match mapGet xs k with
      | some v => some v
      | none => mapGet ys k := by
  induction xs with
  | nil => rfl
  | cons p xs ih =>
      rw [List.cons_append, mapGet_cons, mapGet_cons]
      by_cases hp : p.1 = k
      · rw [if_pos hp, if_pos hp]
      · rw [if_neg hp, if_neg hp, ih]

theorem mapGet_mapSet_same (m : List (String × String)) (k v : String) :
    mapGet (mapSet m k v) k = some v := by
  unfold mapSet
  rw [mapGet_append, mapGet_filter_self]
  rw [mapGet_cons, if_pos rfl]

theorem mapGet_mapSet_other (m : List (String × String)) (k v k' : String)
    (h : k' ≠ k) : mapGet (mapSet m k v) k' = mapGet m k' := by
  unfold mapSet
  rw [mapGet_append, mapGet_filter_ne m k k' h]
  cases hm : mapGet m k' with
  | some w => rfl
  | none =>
      rw [mapGet_cons, if_neg (fun hh => h (by rw [← hh]))]
      rfl

theorem flushWith_empty (c : Client)
    (respond : HTTPPost → Except String HTTPResponse)
    (h : c.buffer.entries = []) :
    c.flushWith respond = (c, none, []) := by
  unfold Client.flushWith
  simp [Buffer.Flush, h]

theorem flushWith_nonempty (c : Client)
    (respond : HTTPPost → Except String HTTPResponse)
    (h : c.buffer.entries ≠ []) :
    (c.flushWith respond).1 = { c with buffer := { c.buffer with entries := [] } } ∧
    (c.flushWith respond).2.1 =
      some { streams := flushStreams c.config c.buffer.entries } := by
  unfold Client.flushWith
  simp only [Buffer.Flush, if_neg h]
  split
  · exact ⟨rfl, rfl⟩
  · exact ⟨rfl, rfl⟩

theorem flushWith_state (c : Client)
    (respond : HTTPPost → Except String HTTPResponse) :
    (c.flushWith respond).1 = { c with buffer := { c.buffer with entries := [] } } := by
  by_cases h : c.buffer.entries = []
  · rw [flushWith_empty c respond h]
    cases c with
    | mk cfg b st cl => cases b with
      | mk es sz => simp_all
  · exact (flushWith_nonempty c respond h).1

theorem flushWith_closed (c : Client)
    (respond : HTTPPost → Except String HTTPResponse) :
    (c.flushWith respond).1.closed = c.closed := by
  rw [flushWith_state]

theorem flushWith_started (c : Client)
    (respond : HTTPPost → Except String HTTPResponse) :
    (c.flushWith respond).1.started = c.started := by
  rw [flushWith_state]

theorem flushWith_diag (c : Client)
    (respond : HTTPPost → Except String HTTPResponse)
    (h : c.buffer.entries ≠ []) (err : SendError)
    (hs : (Client.send c.config respond
        { streams := flushStreams c.config c.buffer.entries }).2 = .error err) :
    (c.flushWith respond).2.2 =
      ["Failed to send logs to Loki: " ++ err.render] := by
  unfold Client.flushWith
  simp only [Buffer.Flush, if_neg h]
  rw [hs]

theorem stop_not_started (c : Client)
    (respond : HTTPPost → Except String HTTPResponse)
    (h : c.started = false) :
    c.Stop respond = (c, []) := by
  unfold Client.Stop
  rw [h]
  rw [if_pos rfl]

theorem stop_closed_of_started (c : Client)
    (respond : HTTPPost → Except String HTTPResponse)
    (h : c.started = true) :
    (c.Stop respond).1.closed = true := by
  unfold Client.Stop
  rw [h]
  rw [if_neg (by simp)]
  by_cases hc : c.closed
  · rw [if_pos hc]
  · rw [if_neg hc]
    rw [flushWith_closed]

theorem push_closed (c : Client) (msg : String) (lvl : LogLevel) (now : Int)
    (respond : HTTPPost → Except String HTTPResponse)
    (h : c.closed = true) :
    c.pushLogWithLevel msg lvl now respond = (c, [], some .closedError) := by
  unfold Client.pushLogWithLevel
  rw [h]
  rw [if_pos rfl]

theorem push_not_started (c : Client) (msg : String) (lvl : LogLevel)
    (now : Int) (respond : HTTPPost → Except String HTTPResponse)
    (hcl : c.closed = false) (hst : c.started = false) :
    c.pushLogWithLevel msg lvl now respond = (c, [], some .notStartedError) := by
  unfold Client.pushLogWithLevel
  rw [hcl, hst]
  rw [if_neg (by simp), if_pos rfl]

theorem push_no_error (c : Client) (msg : String) (lvl : LogLevel) (now : Int)
    (respond : HTTPPost → Except String HTTPResponse)
    (h1 : c.started = true) (h2 : c.closed = false) :
    (c.pushLogWithLevel msg lvl now respond).2.2 = none := by
  unfold Client.pushLogWithLevel
  rw [h1, h2]
  rw [if_neg (by simp), if_neg (by simp)]
  by_cases hmin : lvl.toNat < c.config.minLevel.toNat
  · rw [if_pos hmin]
  · rw [if_neg hmin]
    dsimp only
    split
    · rfl
    · rfl

/-! Claim theorems. -/

/-- C3: for every buffer state and every entry, Buffer.Add appends the
entry (and keeps the threshold) and returns true if and only if the
post-append length is at least the configured threshold. -/
theorem buffer_add_threshold (b : Buffer) (e : LogEntry) :
    ((b.Add e).2 = true ↔ b.size ≤ ((b.Add e).1.entries.length : Int)) ∧
    (b.Add e).1.entries = b.entries ++ [e] ∧
    (b.Add e).1.size = b.size := by
  refine ⟨?_, rfl, rfl⟩
  simp [Buffer.Add]

/-- C2: starting from an empty buffer, after any sequence of Add calls,
Flush returns exactly the added entries in insertion order and leaves the
buffer empty; with no entries added it returns none (Go nil), and a
client flush over such a buffer performs no network send. -/
theorem buffer_flush_returns_added_entries (b : Buffer) (es : List LogEntry)
    (hb : b.entries = []) :
    ((b.addAll es).Flush.2 = if es = [] then none else some es) ∧
    (b.addAll es).Flush.1.entries = [] ∧
    (es = [] → ∀ (config : ClientConfig) (st cl : Bool)
        (respond : HTTPPost → Except String HTTPResponse),
      (Client.flushWith ⟨config, b.addAll es, st, cl⟩ respond).2.1 = none) := by
  have hent : (b.addAll es).entries = es := by
    rw [Buffer.addAll_entries, hb]; rfl
  refine ⟨?_, ?_, ?_⟩
  · by_cases h : es = []
    · subst h
      simp [Buffer.Flush, hent]
    · simp [Buffer.Flush, hent, h]
  · by_cases h : es = []
    · subst h
      simp [Buffer.Flush, hent]
    · simp [Buffer.Flush, hent, h]
  · intro h config st cl respond
    rw [flushWith_empty _ respond (by rw [hent] at *; exact h ▸ hent)]

/-- C2 witness: two adds into a fresh buffer of threshold 3 flush to
exactly those two entries, in order, leaving the buffer empty; a fresh
empty buffer sends nothing. -/
theorem buffer_flush_returns_added_entries_witness :
    ((NewBuffer 3).addAll
        [{ timestamp := 1, message := "a", level := .info },
         { timestamp := 2, message := "b", level := .error }]).Flush.2 =
      some [{ timestamp := 1, message := "a", level := .info },
            { timestamp := 2, message := "b", level := .error }] ∧
    ((NewBuffer 3).addAll
        [{ timestamp := 1, message := "a", level := .info },
         { timestamp := 2, message := "b", level := .error }]).Flush.1.entries = [] ∧
    (Client.flushWith
        ⟨{ url := "http://h", labels := [], batchSize := 3, minWaitTime := 1,
           maxWaitTime := 10, minLevel := .info },
         (NewBuffer 3).addAll [], false, false⟩
        (fun _ => .ok { statusCode := 204, body := "" })).2.1 = none := by
  have h1 := buffer_flush_returns_added_entries (NewBuffer 3)
    [{ timestamp := 1, message := "a", level := .info },
     { timestamp := 2, message := "b", level := .error }] rfl
  have h2 := buffer_flush_returns_added_entries (NewBuffer 3) [] rfl
  exact ⟨by simpa using h1.1, h1.2.1, h2.2.2 rfl _ false false _⟩

/-- C5: on a started, non-closed client, a submission whose level is
strictly below the configured minimum returns no error and leaves the
client (in particular the buffer) completely unchanged. -/
theorem submit_below_min_level_dropped (c : Client) (msg : String)
    (lvl : LogLevel) (now : Int)
    (respond : HTTPPost → Except String HTTPResponse)
    (h1 : c.started = true) (h2 : c.closed = false)
    (h3 : lvl.toNat < c.config.minLevel.toNat) :
    c.pushLogWithLevel msg lvl now respond = (c, [], none) := by
  unfold Client.pushLogWithLevel
  rw [h1, h2]
  rw [if_neg (by simp), if_neg (by simp), if_pos h3]

/-- C5 witness: with minimum level Info, a Debug submission on a started
client with one buffered entry leaves the buffer at its prior length. -/
theorem submit_below_min_level_dropped_witness :
    Client.pushLogWithLevel
      ⟨{ url := "http://h", labels := [], batchSize := 3, minWaitTime := 1,
         maxWaitTime := 10, minLevel := .info },
       { entries := [{ timestamp := 1, message := "a", level := .info }],
         size := 3 }, true, false⟩
      "dropped" .debug 2 (fun _ => .ok { statusCode := 204, body := "" }) =
    (⟨{ url := "http://h", labels := [], batchSize := 3, minWaitTime := 1,
        maxWaitTime := 10, minLevel := .info },
      { entries := [{ timestamp := 1, message := "a", level := .info }],
        size := 3 }, true, false⟩, [], none) :=
  submit_below_min_level_dropped _ "dropped" .debug 2 _ rfl rfl (by decide)

/-- C4: stopping a started client marks it closed; every subsequent
submit-by-level call returns ClosedError and leaves the client, hence the
buffer, unchanged; and on a never-started (hence never-stopped-effectively)
non-closed client a submit returns NotStartedError without mutation — the
lifecycle checks precede any append. -/
theorem submit_after_stop_lifecycle (c : Client)
    (respond : HTTPPost → Except String HTTPResponse)
    (h : c.started = true) :
    ((c.Stop respond).1.closed = true) ∧
    (∀ (c' : Client), c'.closed = true →
      ∀ (msg : String) (now : Int)
        (respond2 : HTTPPost → Except String HTTPResponse),
      c'.Debug msg now respond2 = (c', [], some .closedError) ∧
      c'.Info msg now respond2 = (c', [], some .closedError) ∧
      c'.Warn msg now respond2 = (c', [], some .closedError) ∧
      c'.Error msg now respond2 = (c', [], some .closedError)) ∧
    (∀ (c2 : Client), c2.closed = false → c2.started = false →
      ∀ (msg : String) (lvl : LogLevel) (now : Int)
        (respond2 : HTTPPost → Except String HTTPResponse),
      c2.pushLogWithLevel msg lvl now respond2 = (c2, [], some .notStartedError)) := by
  refine ⟨stop_closed_of_started c respond h, ?_, ?_⟩
  · intro c' hc' msg now respond2
    exact ⟨push_closed c' msg .debug now respond2 hc',
           push_closed c' msg .info now respond2 hc',
           push_closed c' msg .warn now respond2 hc',
           push_closed c' msg .error now respond2 hc'⟩
  · intro c2 hcl hst msg lvl now respond2
    exact push_not_started c2 msg lvl now respond2 hcl hst

/-- C4 witness: a concrete started client is closed by Stop, and a
subsequent Info submit returns ClosedError with the client unchanged. -/
theorem submit_after_stop_lifecycle_witness :
    (Client.Stop
        ⟨{ url := "http://h", labels := [], batchSize := 3, minWaitTime := 1,
           maxWaitTime := 10, minLevel := .info },
         NewBuffer 3, true, false⟩
        (fun _ => .ok { statusCode := 204, body := "" })).1.closed = true ∧
    Client.Info
      ⟨{ url := "http://h", labels := [], batchSize := 3, minWaitTime := 1,
         maxWaitTime := 10, minLevel := .info },
       NewBuffer 3, true, true⟩
      "late" 9 (fun _ => .ok { statusCode := 204, body := "" }) =
    (⟨{ url := "http://h", labels := [], batchSize := 3, minWaitTime := 1,
        maxWaitTime := 10, minLevel := .info },
      NewBuffer 3, true, true⟩, [], some .closedError) := by
  have h := submit_after_stop_lifecycle
    ⟨{ url := "http://h", labels := [], batchSize := 3, minWaitTime := 1,
       maxWaitTime := 10, minLevel := .info },
     NewBuffer 3, true, false⟩
    (fun _ => .ok { statusCode := 204, body := "" }) rfl
  exact ⟨h.1, (h.2.1 _ rfl "late" 9 _).2.1⟩

/-- C9: in the zap delegation wrapper with the Loki client present, only
Fatal issues the remote shipping call before delegating to the local
logger; Debug, Info, Warn, Error, DPanic and Panic delegate locally first
and call the remote client after. -/
theorem fatal_remote_first (l : Logger) (msg fmsg : String)
    (h : l.hasLoki = true) :
    l.Fatal msg fmsg = [.remoteSink .error fmsg, .localSink "Fatal" msg] ∧
    l.Debug msg fmsg = [.localSink "Debug" msg, .remoteSink .debug fmsg] ∧
    l.Info msg fmsg = [.localSink "Info" msg, .remoteSink .info fmsg] ∧
    l.Warn msg fmsg = [.localSink "Warn" msg, .remoteSink .warn fmsg] ∧
    l.Error msg fmsg = [.localSink "Error" msg, .remoteSink .error fmsg] ∧
    l.DPanic msg fmsg = [.localSink "DPanic" msg, .remoteSink .error fmsg] ∧
    l.Panic msg fmsg = [.localSink "Panic" msg, .remoteSink .error fmsg] := by
  simp [Logger.Fatal, Logger.Debug, Logger.Info, Logger.Warn, Logger.Error,
    Logger.DPanic, Logger.Panic, h]

/-- C9 witness: concrete Fatal call with Loki enabled puts the remote
call first. -/
theorem fatal_remote_first_witness :
    Logger.Fatal ⟨true⟩ "m" "f" =
      [.remoteSink .error "f", .localSink "Fatal" "m"] :=
  (fatal_remote_first ⟨true⟩ "m" "f" rfl).1

/-- C1: on a non-empty drained batch, the client flush sends one stream
per distinct level of the batch (the distinct levels, without duplicates,
are exactly the levels present); each level's stream carries the default
labels plus detected_level set to the level's canonical name, and its
values are that level's entries as (decimal timestamp, message) pairs in
buffered order. -/
theorem flush_partitions_by_level (c : Client)
    (respond : HTTPPost → Except String HTTPResponse)
    (h : c.buffer.entries ≠ []) :
    (distinctLevels c.buffer.entries).Nodup ∧
    (∀ lvl, lvl ∈ distinctLevels c.buffer.entries ↔
      ∃ e ∈ c.buffer.entries, e.level = lvl) ∧
    (c.flushWith respond).2.1 =
      some { streams := (distinctLevels c.buffer.entries).map (fun lvl =>
        { stream := mapSet c.config.labels "detected_level" (LevelToString lvl),
          values := (c.buffer.entries.filter (fun e => e.level == lvl)).map
            (fun e => (toString e.timestamp, e.message)) }) } ∧
    (∀ lvl,
      mapGet (mapSet c.config.labels "detected_level" (LevelToString lvl))
        "detected_level" = some (LevelToString lvl) ∧
      ∀ k, k ≠ "detected_level" →
        mapGet (mapSet c.config.labels "detected_level" (LevelToString lvl)) k =
          mapGet c.config.labels k) := by
  refine ⟨distinctLevels_nodup _, fun lvl => mem_distinctLevels _ lvl, ?_, ?_⟩
  · rw [(flushWith_nonempty c respond h).2]
    rfl
  · intro lvl
    exact ⟨mapGet_mapSet_same _ _ _,
           fun k hk => mapGet_mapSet_other _ _ _ _ hk⟩

/-- C1 witness: the batch [(1,a,Info),(2,b,Error),(3,c,Info)] flushes to
exactly two streams, Info with values [(1,a),(3,c)] and Error with
values [(2,b)], each labelled with the default label and its level. -/
theorem flush_partitions_by_level_witness :
    (Client.flushWith
        ⟨{ url := "http://h", labels := [("service", "s")], batchSize := 100,
           minWaitTime := 1, maxWaitTime := 10, minLevel := .debug },
         { entries := [{ timestamp := 1, message := "a", level := .info },
                       { timestamp := 2, message := "b", level := .error },
                       { timestamp := 3, message := "c", level := .info }],
           size := 100 }, true, false⟩
        (fun _ => .ok { statusCode := 204, body := "" })).2.1 =
      some { streams := [
        { stream := [("service", "s"), ("detected_level", "info")],
          values := [("1", "a"), ("3", "c")] },
        { stream := [("service", "s"), ("detected_level", "error")],
          values := [("2", "b")] }] } := by
  have h := flush_partitions_by_level
    ⟨{ url := "http://h", labels := [("service", "s")], batchSize := 100,
       minWaitTime := 1, maxWaitTime := 10, minLevel := .debug },
     { entries := [{ timestamp := 1, message := "a", level := .info },
                   { timestamp := 2, message := "b", level := .error },
                   { timestamp := 3, message := "c", level := .info }],
       size := 100 }, true, false⟩
    (fun _ => .ok { statusCode := 204, body := "" }) (by decide)
  rw [h.2.2.1]
  decide

/-- C6: the transport send issues its POST to baseURL ++
"/loki/api/v1/push" with content type application/json and the request as
payload; it succeeds exactly when the HTTP response status is 204, any
other status yields an error carrying that status and the response body,
and a transport failure yields an error carrying its message. -/
theorem send_post_and_status (config : ClientConfig)
    (respond : HTTPPost → Except String HTTPResponse) (req : PushRequest) :
    (Client.send config respond req).1 = sendPost config req ∧
    (sendPost config req).url = config.url ++ "/loki/api/v1/push" ∧
    (sendPost config req).contentType = "application/json" ∧
    (sendPost config req).payload = req ∧
    (∀ resp, respond (sendPost config req) = .ok resp →
      ((Client.send config respond req).2 = .ok () ↔ resp.statusCode = 204) ∧
      (resp.statusCode ≠ 204 →
        (Client.send config respond req).2 =
          .error (.statusError resp.statusCode resp.body))) ∧
    (∀ e, respond (sendPost config req) = .error e →
      (Client.send config respond req).2 = .error (.requestError e)) := by
  refine ⟨rfl, rfl, rfl, rfl, ?_, ?_⟩
  · intro resp hresp
    have h2 : (Client.send config respond req).2 =
        if resp.statusCode = 204 then .ok () else
          .error (.statusError resp.statusCode resp.body) := by
      unfold Client.send
      rw [hresp]
    by_cases h204 : resp.statusCode = 204
    · refine ⟨⟨fun _ => h204, fun _ => ?_⟩, fun hne => absurd h204 hne⟩
      rw [h2, if_pos h204]
    · have hE : (Client.send config respond req).2 =
          .error (.statusError resp.statusCode resp.body) := by
        rw [h2, if_neg h204]
      refine ⟨⟨fun hok => ?_, fun hc => absurd hc h204⟩, fun _ => hE⟩
      rw [hE] at hok
      cases hok
  · intro e he
    unfold Client.send
    rw [he]

/-- C6 witness: with a transport answering 204 the send succeeds, and the
issued POST targets the push path with JSON content type; with a 500
answer the error carries status and body. -/
theorem send_post_and_status_witness :
    (Client.send
        { url := "http://h", labels := [], batchSize := 100, minWaitTime := 1,
          maxWaitTime := 10, minLevel := .info }
        (fun _ => .ok { statusCode := 204, body := "" })
        { streams := [] }).2 = .ok () ∧
    (sendPost
        { url := "http://h", labels := [], batchSize := 100, minWaitTime := 1,
          maxWaitTime := 10, minLevel := .info }
        { streams := [] }).url = "http://h/loki/api/v1/push" ∧
    (Client.send
        { url := "http://h", labels := [], batchSize := 100, minWaitTime := 1,
          maxWaitTime := 10, minLevel := .info }
        (fun _ => .ok { statusCode := 500, body := "boom" })
        { streams := [] }).2 = .error (.statusError 500 "boom") := by
  have hok := send_post_and_status
    { url := "http://h", labels := [], batchSize := 100, minWaitTime := 1,
      maxWaitTime := 10, minLevel := .info }
    (fun _ => .ok { statusCode := 204, body := "" }) { streams := [] }
  have hbad := send_post_and_status
    { url := "http://h", labels := [], batchSize := 100, minWaitTime := 1,
      maxWaitTime := 10, minLevel := .info }
    (fun _ => .ok { statusCode := 500, body := "boom" }) { streams := [] }
  refine ⟨(hok.2.2.2.2.1 { statusCode := 204, body := "" } rfl).1.mpr rfl,
          hok.2.1, ?_⟩
  have := (hbad.2.2.2.2.1 { statusCode := 500, body := "boom" } rfl).2 (by decide)
  exact this

/-- C7: the client state after a flush is independent of the transport
outcome — the drained batch is never retried nor re-buffered and the
buffer ends empty either way; a failing send only adds a diagnostic log
line; and a submit on an operational client never returns an error, so
no transport error reaches the submit caller. -/
theorem flush_failure_drops_batch (c : Client)
    (respond respond2 : HTTPPost → Except String HTTPResponse) :
    ((c.flushWith respond).1 = (c.flushWith respond2).1) ∧
    ((c.flushWith respond).1.buffer.entries = []) ∧
    (∀ err, c.buffer.entries ≠ [] →
      (Client.send c.config respond
          { streams := flushStreams c.config c.buffer.entries }).2 = .error err →
      (c.flushWith respond).2.2 =
        ["Failed to send logs to Loki: " ++ err.render]) ∧
    (∀ (msg : String) (lvl : LogLevel) (now : Int),
      c.started = true → c.closed = false →
      (c.pushLogWithLevel msg lvl now respond).2.2 = none) := by
  refine ⟨?_, ?_, ?_, ?_⟩
  · rw [flushWith_state, flushWith_state]
  · rw [flushWith_state]
  · intro err hne hs
    exact flushWith_diag c respond hne err hs
  · intro msg lvl now h1 h2
    exact push_no_error c msg lvl now respond h1 h2

/-- C7 witness: a flush whose transport fails leaves the same state as a
flush whose transport succeeds, and reports the failure only as a
diagnostic line. -/
theorem flush_failure_drops_batch_witness :
    (Client.flushWith
        ⟨{ url := "http://h", labels := [], batchSize := 100, minWaitTime := 1,
           maxWaitTime := 10, minLevel := .info },
         { entries := [{ timestamp := 1, message := "a", level := .info }],
           size := 100 }, true, false⟩
        (fun _ => .error "conn refused")).1 =
      (Client.flushWith
        ⟨{ url := "http://h", labels := [], batchSize := 100, minWaitTime := 1,
           maxWaitTime := 10, minLevel := .info },
         { entries := [{ timestamp := 1, message := "a", level := .info }],
           size := 100 }, true, false⟩
        (fun _ => .ok { statusCode := 204, body := "" })).1 ∧
    (Client.flushWith
        ⟨{ url := "http://h", labels := [], batchSize := 100, minWaitTime := 1,
           maxWaitTime := 10, minLevel := .info },
         { entries := [{ timestamp := 1, message := "a", level := .info }],
           size := 100 }, true, false⟩
        (fun _ => .error "conn refused")).2.2 =
      ["Failed to send logs to Loki: send request failed: conn refused"] := by
  have h := flush_failure_drops_batch
    ⟨{ url := "http://h", labels := [], batchSize := 100, minWaitTime := 1,
       maxWaitTime := 10, minLevel := .info },
     { entries := [{ timestamp := 1, message := "a", level := .info }],
       size := 100 }, true, false⟩
    (fun _ => .error "conn refused")
    (fun _ => .ok { statusCode := 204, body := "" })
  refine ⟨h.1, ?_⟩
  rw [h.2.2.1 (.requestError "conn refused") (by decide) rfl]
  decide

/-- C8: a config with an empty URL fails construction with the config
error; a non-empty URL always succeeds, with batch size 0 becoming 100,
minimum wait 0 becoming 1, maximum wait 0 becoming 10, and a maximum
wait not exceeding the minimum forced to minimum + 1; the other fields
are kept, the buffer is fresh, and the client starts neither started nor
closed. -/
theorem new_client_normalizes_config (config : ClientConfig) :
    (config.url = "" → NewClient config = .error .urlRequired) ∧
    (config.url ≠ "" →
      NewClient config = .ok {
        config := { config with
          batchSize := if config.batchSize = 0 then 100 else config.batchSize,
          minWaitTime := if config.minWaitTime = 0 then 1 else config.minWaitTime,
          maxWaitTime :=
            if (if config.maxWaitTime = 0 then 10 else config.maxWaitTime) ≤
                (if config.minWaitTime = 0 then 1 else config.minWaitTime) then
              (if config.minWaitTime = 0 then 1 else config.minWaitTime) + 1
            else if config.maxWaitTime = 0 then 10 else config.maxWaitTime },
        buffer := NewBuffer
          (if config.batchSize = 0 then 100 else config.batchSize),
        started := false, closed := false }) := by
  constructor
  · intro h
    unfold NewClient
    rw [if_pos h]
  · intro h
    unfold NewClient
    rw [if_neg h]

/-- C8 witness: an all-zero config with a URL normalizes to batch 100 and
waits 1/10; a max wait below the min wait is forced to min + 1; an empty
URL is rejected. -/
theorem new_client_normalizes_config_witness :
    NewClient { url := "http://h", labels := [], batchSize := 0,
                minWaitTime := 0, maxWaitTime := 0, minLevel := .info } =
      .ok { config := { url := "http://h", labels := [], batchSize := 100,
                        minWaitTime := 1, maxWaitTime := 10, minLevel := .info },
            buffer := NewBuffer 100, started := false, closed := false } ∧
    NewClient { url := "http://h", labels := [], batchSize := 5,
                minWaitTime := 20, maxWaitTime := 7, minLevel := .info } =
      .ok { config := { url := "http://h", labels := [], batchSize := 5,
                        minWaitTime := 20, maxWaitTime := 21, minLevel := .info },
            buffer := NewBuffer 5, started := false, closed := false } ∧
    NewClient { url := "", labels := [], batchSize := 0, minWaitTime := 0,
                maxWaitTime := 0, minLevel := .info } = .error .urlRequired := by
  have h1 := new_client_normalizes_config
    { url := "http://h", labels := [], batchSize := 0, minWaitTime := 0,
      maxWaitTime := 0, minLevel := .info }
  have h2 := new_client_normalizes_config
    { url := "http://h", labels := [], batchSize := 5, minWaitTime := 20,
      maxWaitTime := 7, minLevel := .info }
  have h3 := new_client_normalizes_config
    { url := "", labels := [], batchSize := 0, minWaitTime := 0,
      maxWaitTime := 0, minLevel := .info }
  refine ⟨?_, ?_, h3.1 rfl⟩
  · rw [h1.2 (by decide)]
    rfl
  · rw [h2.2 (by decide)]
    rfl

/-- C10: on a constructed, never-started client, any number of Stop calls
leaves it unchanged (the closed flag stays false); Start then still
spawns the background task and flips started; and submits after that
Start return no lifecycle error at all. -/
theorem stop_before_start_not_closing (c : Client)
    (respond respond2 : HTTPPost → Except String HTTPResponse) (n : Nat)
    (h1 : c.started = false) (h2 : c.closed = false) :
    (Nat.iterate (fun cc => (Client.Stop cc respond).1) n c = c) ∧
    ((Client.Start c).2 = true) ∧
    ((Client.Start c).1 = { c with started := true }) ∧
    (∀ (msg : String) (lvl : LogLevel) (now : Int),
      ((Client.Start c).1.pushLogWithLevel msg lvl now respond2).2.2 = none) := by
  have hstep : (fun cc => (Client.Stop cc respond).1) c = c := by
    show (Client.Stop c respond).1 = c
    rw [stop_not_started c respond h1]
  have hstart : Client.Start c = ({ c with started := true }, true) := by
    unfold Client.Start
    rw [h1]
    rw [if_neg (by simp)]
  refine ⟨Function.iterate_fixed hstep n, ?_, ?_, ?_⟩
  · rw [hstart]
  · rw [hstart]
  · intro msg lvl now
    rw [hstart]
    exact push_no_error _ msg lvl now respond2 rfl h2

/-- C10 witness: three Stops on a fresh client leave it unchanged, Start
then spawns the worker, and a subsequent Error submit is accepted. -/
theorem stop_before_start_not_closing_witness :
    (Nat.iterate
        (fun cc => (Client.Stop cc
          (fun _ => .ok { statusCode := 204, body := "" })).1) 3
        ⟨{ url := "http://h", labels := [], batchSize := 2, minWaitTime := 1,
           maxWaitTime := 10, minLevel := .info },
         NewBuffer 2, false, false⟩ =
      ⟨{ url := "http://h", labels := [], batchSize := 2, minWaitTime := 1,
         maxWaitTime := 10, minLevel := .info },
       NewBuffer 2, false, false⟩) ∧
    ((Client.Start
        ⟨{ url := "http://h", labels := [], batchSize := 2, minWaitTime := 1,
           maxWaitTime := 10, minLevel := .info },
         NewBuffer 2, false, false⟩).2 = true) ∧
    (((Client.Start
        ⟨{ url := "http://h", labels := [], batchSize := 2, minWaitTime := 1,
           maxWaitTime := 10, minLevel := .info },
         NewBuffer 2, false, false⟩).1.pushLogWithLevel "late" .error 9
        (fun _ => .ok { statusCode := 204, body := "" })).2.2 = none) := by
  have h := stop_before_start_not_closing
    ⟨{ url := "http://h", labels := [], batchSize := 2, minWaitTime := 1,
       maxWaitTime := 10, minLevel := .info },
     NewBuffer 2, false, false⟩
    (fun _ => .ok { statusCode := 204, body := "" })
    (fun _ => .ok { statusCode := 204, body := "" }) 3 rfl rfl
  exact ⟨h.1, h.2.1, h.2.2.2 "late" .error 9⟩

end Btlog
